import Mathlib

/-!
Shallow embedding of the `authenticator` repository's token engine and
signup flow, for checking the specification's claims.

The embedding follows `internal/token/service.go`, `internal/httpapi/middleware.go`
and the signup API source.  Cryptographic byte strings are modelled
symbolically: SHA-512 hashing (`internal/crypto`, not part of the sources)
is an abstract function carried by the service, base64url wire values are a
{well-formed encoding, junk} sum, and HS-512 JWT signing is a record pairing
the serialized claims with the signing secret and signing-method flag.
-/

namespace Authenticator

/-- The delivery method of an OTP message (Go `auth.DeliveryMethod`,
values `phone` / `email`). -/
inductive DeliveryMethod
  | phone
  | email
deriving DecidableEq

/-- The state claim of a JWT token (Go `auth.TokenState`,
`pre_authorized` / `authorized`). -/
inductive TokenState
  | preAuthorized
  | authorized
deriving DecidableEq

/-- A two-factor option advertised in a token (Go `auth.TFAOptions`). -/
inductive TFAOptions
  | otpPhone
  | otpEmail
  | totp
  | fidoDevice
deriving DecidableEq

/-- The refresh-token envelope (`token.RefreshToken` in `service.go`):
a JSON record `{code, expires_at}`. -/
structure RefreshToken where
  Code : String
  ExpiresAt : Int
deriving DecidableEq

/-- Symbolic byte string: either raw text (for example a random client
secret) or the JSON serialization of a refresh-token envelope. -/
inductive Data
  | str (s : String)
  | jsonRT (rt : RefreshToken)
deriving DecidableEq

/-- Symbolic base64url wire value: a well-formed encoding of some bytes,
or junk that does not decode. The Go empty string decodes to empty bytes,
so it is modelled as `Wire.enc (Data.str "")`. -/
inductive Wire
  | enc (d : Data)
  | junk (s : String)
deriving DecidableEq

/-- `base64.RawURLEncoding.DecodeString`. -/
def b64decode : Wire → Option Data
  | .enc d => some d
  | .junk _ => none

/-- `base64.RawURLEncoding.EncodeToString`. -/
def b64encode (d : Data) : Wire := .enc d

/-- The Go empty string as a wire value. -/
def emptyWire : Wire := .enc (.str "")

/-- `json.Unmarshal` of decoded bytes into a `RefreshToken`:
in the symbolic model only a serialized envelope parses. -/
def jsonParseRefreshToken : Data → Option RefreshToken
  | .jsonRT rt => some rt
  | .str _ => none

/-- A registered user (`auth.User`); nullable phone/email are modelled by
their `.String` projections, as `service.go` reads them. -/
structure User where
  ID : String
  Phone : String
  Email : String
  Password : String
  TFASecret : String
  IsPhoneOTPAllowed : Bool
  IsEmailOTPAllowed : Bool
  IsTOTPAllowed : Bool
  IsDeviceAllowed : Bool
  IsVerified : Bool
deriving DecidableEq

/-- The OTP hash envelope stored in a token's `code-hash` field.
Modelled from the spec: `<digest>:<expires-at-unix>:<address>:<delivery-method>`
(the `internal/otp` engine is not among the sources). An absent code hash
(Go `""`) is `Option.none` at the use sites. -/
structure OTPEnvelope where
  digest : String
  expiresAt : Int
  address : String
  method : DeliveryMethod
deriving DecidableEq

/-- The token claim structure (`auth.Token`): standard JWT claims plus the
authenticator's fields, as consumed by `token/service.go`. -/
structure AuthToken where
  ExpiresAt : Int
  Id : String
  Issuer : String
  Code : String
  CodeHash : Option OTPEnvelope
  RefreshToken : Wire
  RefreshTokenHash : String
  UserID : String
  Email : String
  Phone : String
  ClientID : Wire
  ClientIDHash : String
  State : TokenState
  TFAOptions : List TFAOptions
deriving DecidableEq

/-- The serialized JWT claim set, per the spec's claim shape: the hash
fields are embedded in the signed payload, the plaintext secrets
(`Code`, `ClientID`, `RefreshToken`) are not. -/
structure JWTClaims where
  ExpiresAt : Int
  Id : String
  Issuer : String
  CodeHash : Option OTPEnvelope
  RefreshTokenHash : String
  UserID : String
  Email : String
  Phone : String
  ClientIDHash : String
  State : TokenState
  TFAOptions : List TFAOptions
deriving DecidableEq

/-- Claims serialized from a token (the `json.Marshal` step of `Sign`). -/
def tokenClaims (t : AuthToken) : JWTClaims :=
  { ExpiresAt := t.ExpiresAt
    Id := t.Id
    Issuer := t.Issuer
    CodeHash := t.CodeHash
    RefreshTokenHash := t.RefreshTokenHash
    UserID := t.UserID
    Email := t.Email
    Phone := t.Phone
    ClientIDHash := t.ClientIDHash
    State := t.State
    TFAOptions := t.TFAOptions }

/-- Token unmarshalled back from a claim set (the `json.Unmarshal` step of
`Validate`); the plaintext fields come back as Go zero values. -/
def claimsToken (c : JWTClaims) : AuthToken :=
  { ExpiresAt := c.ExpiresAt
    Id := c.Id
    Issuer := c.Issuer
    Code := ""
    CodeHash := c.CodeHash
    RefreshToken := emptyWire
    RefreshTokenHash := c.RefreshTokenHash
    UserID := c.UserID
    Email := c.Email
    Phone := c.Phone
    ClientID := emptyWire
    ClientIDHash := c.ClientIDHash
    State := c.State
    TFAOptions := c.TFAOptions }

/-- A signed JWT string, symbolically: the embedded claims, the secret it
was signed with, and whether the signing method is HMAC. -/
structure SignedJWT where
  claims : JWTClaims
  secret : String
  algHMAC : Bool
deriving DecidableEq

/-- The payload of an `Authorization` header after the `Bearer ` marker:
either a structurally well-formed JWT or malformed text. -/
inductive JWTString
  | signed (jwt : SignedJWT)
  | malformed (s : String)
deriving DecidableEq

/-- A full `Authorization` header value: whether it starts with the
`Bearer ` marker, and the rest. -/
structure BearerString where
  hasBearer : Bool
  payload : JWTString
deriving DecidableEq

/-- The revocation ledger (redis): token ID paired with the absolute time
at which the redis key expires. -/
abbrev Ledger := List (String × Int)

/-- Redis `Get(id)` succeeding (the key is present and its TTL has not
elapsed): presence means revoked. -/
def Ledger.hasKey (l : Ledger) (now : Int) (id : String) : Bool :=
  l.any (fun p => p.1 == id && decide (now < p.2))

/-- The randomness consumed by one `Create` call: the fresh ULID, the
40-char client secret (`crypto.String`, not among the sources, modelled
from the spec as an opaque random string), the 40-char refresh code, the
OTP code, and the ULID a repository assigns to a created user row. -/
structure Entropy where
  ulid : String
  clientID : String
  refreshCode : String
  otpCode : String
  userULID : String
deriving DecidableEq

/-- Token creation options accumulated by `Create` (`auth.TokenConfiguration`). -/
structure TokenConfiguration where
  DeliveryMethod : Option DeliveryMethod := none
  DeliveryAddress : String := ""
  RefreshableToken : Option AuthToken := none

/-- `auth.TokenOption`: a configuration setter. -/
def TokenOption := TokenConfiguration → TokenConfiguration

/-- `token.WithOTPDeliveryMethod`. -/
def WithOTPDeliveryMethod (m : DeliveryMethod) : TokenOption :=
  fun conf => { conf with DeliveryMethod := some m }

/-- `token.WithOTPAddress`. -/
def WithOTPAddress (address : String) : TokenOption :=
  fun conf => { conf with DeliveryAddress := address }

/-- `token.WithRefreshableToken`. -/
def WithRefreshableToken (t : AuthToken) : TokenOption :=
  fun conf => { conf with RefreshableToken := some t }

/-- Fold a `Create` call's option list into a configuration. -/
def applyOptions (options : List TokenOption) : TokenConfiguration :=
  options.foldl (fun conf opt => opt conf) {}

/-- The token service (`token.service`): its configuration plus the
abstract SHA-512 hex digest function (`crypto.Hash`, modelled from the
spec as an uninterpreted function on symbolic bytes) and the OTP engine's
configured code TTL. -/
structure TokenSvc where
  tokenExpiry : Int
  refreshTokenExpiry : Int
  otpTTL : Int
  secret : String
  issuer : String
  hash : Data → String
  cookieMaxAge : Int
  cookieDomain : String

namespace TokenSvc

/-- `service.isHashValid`. -/
def isHashValid (s : TokenSvc) (d : Data) (h : String) : Bool :=
  s.hash d == h

/-- `service.genTFAOptions`. -/
def genTFAOptions (_s : TokenSvc) (user : User) : List TFAOptions :=
  (if user.IsPhoneOTPAllowed then [TFAOptions.otpPhone] else []) ++
  (if user.IsEmailOTPAllowed then [TFAOptions.otpEmail] else []) ++
  (if user.IsTOTPAllowed then [TFAOptions.totp] else []) ++
  (if user.IsDeviceAllowed then [TFAOptions.fidoDevice] else [])

/-- `service.genULID`: carry over the ID of a refreshable token, else a
fresh ULID from the entropy source. -/
def genULID (_s : TokenSvc) (conf : TokenConfiguration) (e : Entropy) : String :=
  match conf.RefreshableToken with
  | some t => t.Id
  | none => e.ulid

/-- `service.genClientIDAndHash`: on refresh reuse the stored digest with
an empty plaintext; on first mint draw a 40-char secret, hash it, and
base64url-encode the plaintext. -/
def genClientIDAndHash (s : TokenSvc) (conf : TokenConfiguration) (e : Entropy) :
    Wire × String :=
  match conf.RefreshableToken with
  | some t => (emptyWire, t.ClientIDHash)
  | none => (b64encode (.str e.clientID), s.hash (.str e.clientID))

/-- The OTP engine's `OTPCode(address, method)`.
Modelled from the spec: returns a random code and the hash envelope
`<digest>:<expires-at>:<address>:<method>` with expiry now + configured TTL
(the `internal/otp` engine is not among the sources). -/
def OTPCode (s : TokenSvc) (address : String) (method : DeliveryMethod)
    (now : Int) (e : Entropy) : String × OTPEnvelope :=
  (e.otpCode, ⟨s.hash (.str e.otpCode), now + s.otpTTL, address, method⟩)

/-- A token-service error as classified by the spec's taxonomy. -/
inductive CreateErr
  | invalidField (msg : String)
deriving DecidableEq

/-- `service.genOTPAndHash`: no delivery method means no code; otherwise
resolve the address (explicit, else the user default gated by the
channel-allowed flag) and call the OTP engine; an unresolvable address is
an `InvalidField` error. -/
def genOTPAndHash (s : TokenSvc) (conf : TokenConfiguration) (user : User)
    (now : Int) (e : Entropy) : Except CreateErr (String × Option OTPEnvelope) :=
  match conf.DeliveryMethod with
  | none => .ok ("", none)
  | some method =>
    let sendToDefaultAddress := conf.DeliveryAddress == ""
    let usePhoneNumber :=
      method == DeliveryMethod.phone && user.IsPhoneOTPAllowed && sendToDefaultAddress
    let useEmailAddress :=
      method == DeliveryMethod.email && user.IsEmailOTPAllowed && sendToDefaultAddress
    let address1 := if usePhoneNumber then user.Phone else conf.DeliveryAddress
    let address2 := if useEmailAddress then user.Email else address1
    if address2 == "" then
      .error (.invalidField "delivery address is not valid")
    else
      let pair := s.OTPCode address2 method now e
      .ok (pair.1, some pair.2)

/-- `service.genRefreshTokenAndHash`: on refresh reuse the stored digest
with an empty encoded envelope; on first mint build `{code, expires_at}`,
hash its JSON serialization, and base64url-encode it. -/
def genRefreshTokenAndHash (s : TokenSvc) (conf : TokenConfiguration)
    (now : Int) (e : Entropy) : Wire × String :=
  match conf.RefreshableToken with
  | some t => (emptyWire, t.RefreshTokenHash)
  | none =>
    let rt : RefreshToken := ⟨e.refreshCode, now + s.refreshTokenExpiry⟩
    (b64encode (.jsonRT rt), s.hash (.jsonRT rt))

/-- `service.Create`: mint a new, unsigned token for a user. -/
def Create (s : TokenSvc) (user : User) (state : TokenState)
    (options : List TokenOption) (now : Int) (e : Entropy) :
    Except CreateErr AuthToken :=
  let conf := applyOptions options
  let tokenULID := s.genULID conf e
  let cid := s.genClientIDAndHash conf e
  match s.genOTPAndHash conf user now e with
  | .error err => .error err
  | .ok otp =>
    let rt := s.genRefreshTokenAndHash conf now e
    .ok { ExpiresAt := now + s.tokenExpiry
          Id := tokenULID
          Issuer := s.issuer
          Code := otp.1
          CodeHash := otp.2
          RefreshToken := rt.1
          RefreshTokenHash := rt.2
          UserID := user.ID
          Email := user.Email
          Phone := user.Phone
          ClientID := cid.1
          ClientIDHash := cid.2
          State := state
          TFAOptions := s.genTFAOptions user }

/-- `service.Sign`: an HS-512 (HMAC) JWT over the serialized claims,
keyed by the service secret. -/
def Sign (s : TokenSvc) (t : AuthToken) : SignedJWT :=
  ⟨tokenClaims t, s.secret, true⟩

/-- An error escaping `service.Validate`: an `auth.ErrInvalidToken`
(directly or as the wrapped cause), or the plain wrapped base64 decode
error of the client-ID argument, which carries no `InvalidToken` code. -/
inductive VErr
  | invalidToken (msg : String)
  | decodeFailed (msg : String)
deriving DecidableEq

/-- `service.Validate`, instrumented: the result paired with whether the
revocation ledger was consulted. Mirrors the source order: `Bearer `
marker, JWT parse (signature method, secret, expiry), claims unmarshal,
non-empty user ID, client-ID decode, client-ID hash comparison, and last
the revocation-ledger lookup. -/
def ValidateT (s : TokenSvc) (now : Int) (ledger : Ledger)
    (signedToken : BearerString) (clientID : Wire) :
    Except VErr AuthToken × Bool :=
  if !signedToken.hasBearer then
    (.error (.invalidToken "bearer token expected"), false)
  else
    match signedToken.payload with
    | .malformed _ => (.error (.invalidToken "token is invalid"), false)
    | .signed jwt =>
      if !jwt.algHMAC || jwt.secret != s.secret || decide (now > jwt.claims.ExpiresAt) then
        (.error (.invalidToken "token is invalid"), false)
      else
        let token := claimsToken jwt.claims
        if token.UserID == "" then
          (.error (.invalidToken "token is not associated with user"), false)
        else
          match b64decode clientID with
          | none => (.error (.decodeFailed "cannot decode client ID"), false)
          | some d =>
            if !s.isHashValid d token.ClientIDHash then
              (.error (.invalidToken "token source is invalid"), false)
            else if ledger.hasKey now token.Id then
              (.error (.invalidToken "token is revoked"), true)
            else
              (.ok token, true)

/-- `service.Validate`: the observable result. -/
def Validate (s : TokenSvc) (now : Int) (ledger : Ledger)
    (signedToken : BearerString) (clientID : Wire) : Except VErr AuthToken :=
  (s.ValidateT now ledger signedToken clientID).1

/-- `service.Revoke`: write the token ID to the ledger with the given TTL
(redis `Set` replaces any previous entry for the key). -/
def Revoke (ledger : Ledger) (now : Int) (tokenID : String) (d : Int) : Ledger :=
  (tokenID, now + d) :: ledger.filter (fun p => p.1 != tokenID)

/-- An error escaping `service.Refreshable`: the wrapped base64 decode
error, an `auth.ErrInvalidToken`, or the wrapped JSON format error. -/
inductive RefreshErr
  | decodeFailed (msg : String)
  | invalidToken (msg : String)
  | formatInvalid (msg : String)
deriving DecidableEq

/-- `service.Refreshable`: decode the candidate, compare its hash to the
stored refresh-token hash, parse the envelope, check expiry. -/
def Refreshable (s : TokenSvc) (t : AuthToken) (refreshToken : Wire)
    (now : Int) : Except RefreshErr Unit :=
  match b64decode refreshToken with
  | none => .error (.decodeFailed "cannot decode refresh token")
  | some d =>
    if !s.isHashValid d t.RefreshTokenHash then
      .error (.invalidToken "refresh token is invalid")
    else
      match jsonParseRefreshToken d with
      | none => .error (.formatInvalid "invalid refresh token format")
      | some rt =>
        if decide (now ≥ rt.ExpiresAt) then
          .error (.invalidToken "refresh token is expired")
        else
          .ok ()

end TokenSvc

/-- An HTTP cookie as built by `service.Cookie`. -/
structure HttpCookie where
  Name : String
  Value : Wire
  MaxAge : Int
  Domain : String
  Path : String
  Secure : Bool
  HttpOnly : Bool
deriving DecidableEq

/-- `service.Cookie`: the `CLIENTID` cookie carrying the token's encoded
client-ID plaintext. -/
def TokenSvc.Cookie (s : TokenSvc) (t : AuthToken) : HttpCookie :=
  ⟨"CLIENTID", t.ClientID, s.cookieMaxAge, s.cookieDomain, "/", true, true⟩

/-- An inbound HTTP request as the auth middleware sees it: the
`AUTHORIZATION` header (absent models the Go empty header) and the
request cookies. -/
structure Request where
  authorization : Option BearerString
  cookies : List (String × Wire)
deriving DecidableEq

/-- `httpapi.AuthMiddleware`: reject when the `AUTHORIZATION` header is
empty, run the token service's validate on the header value, and on
success invoke the wrapped handler with the user ID placed in the request
context. The middleware is written against the one-argument
`TokenService.Validate` of `authenticator.go` and reads no cookie. -/
def AuthMiddleware {α : Type} (jsonHandler : Request → String → Except TokenSvc.VErr α)
    (validate : BearerString → Except TokenSvc.VErr AuthToken) (r : Request) :
    Except TokenSvc.VErr α :=
  match r.authorization with
  | none => .error (.invalidToken "user is not authenticated")
  | some jwtToken =>
    match validate jwtToken with
    | .error e => .error e
    | .ok token => jsonHandler r token.UserID

/-- Whether an `Except` result is a success. -/
def exceptOk {ε α : Type} : Except ε α → Bool
  | .ok _ => true
  | .error _ => false

/-- Whether the auth middleware admits a request (reaches the wrapped
handler), probed with a handler that always succeeds. -/
def middlewareAdmits (validate : BearerString → Except TokenSvc.VErr AuthToken)
    (r : Request) : Bool :=
  exceptOk (AuthMiddleware (fun _ _ => Except.ok 0) validate r)

/-- An error escaping the signup API, by the spec's taxonomy. -/
inductive ApiErr
  | badRequest (msg : String)
  | invalidField (msg : String)
  | dbNoRows
deriving DecidableEq

/-- A decoded signup request (`signupapi`): the identity kind, the
identity value and the password. -/
structure SignupRequest where
  Typ : DeliveryMethod
  Identity : String
  Password : String
deriving DecidableEq

/-- Modelled from the spec: the signup request's `ToUser` (the request
decoding file is not among the sources) builds an unverified user whose
registered channel is set from the identity kind and enabled for OTP. -/
def SignupRequest.ToUser (req : SignupRequest) : User :=
  { ID := ""
    Phone := match req.Typ with | .phone => req.Identity | .email => ""
    Email := match req.Typ with | .email => req.Identity | .phone => ""
    Password := req.Password
    TFASecret := ""
    IsPhoneOTPAllowed := req.Typ == DeliveryMethod.phone
    IsEmailOTPAllowed := req.Typ == DeliveryMethod.email
    IsTOTPAllowed := false
    IsDeviceAllowed := false
    IsVerified := false }

/-- The relational user store, modelled as a list of rows. -/
abbrev UserDB := List User

/-- Modelled from the spec: `User().ByIdentity(attribute, identity)` for
the phone/email attributes; `none` is `sql.ErrNoRows` (the repository
implementation is not among the sources). -/
def byIdentity (db : UserDB) (m : DeliveryMethod) (identity : String) : Option User :=
  db.find? (fun u => (match m with | .phone => u.Phone | .email => u.Email) == identity)

/-- Modelled from the spec: `User().ByIdentity("ID", userID)`. -/
def byIdentityID (db : UserDB) (userID : String) : Option User :=
  db.find? (fun u => u.ID == userID)

/-- `signupapi.reCreateUser`: inside a transaction, `GetForUpdate` the
row, re-assert it is unverified, overwrite identity and password, and
`ReCreate`. `ReCreate` itself is modelled from the spec: it re-stamps the
row as a fresh unverified registration with a new ULID. -/
def reCreateUser (db : UserDB) (userID : String) (newUser : User) (e : Entropy) :
    Except ApiErr (UserDB × User) :=
  match db.find? (fun u => u.ID == userID) with
  | none => .error .dbNoRows
  | some user =>
    if user.IsVerified then
      .error (.badRequest "cannot register user")
    else
      let recreated := { user with
        Email := newUser.Email
        Phone := newUser.Phone
        Password := newUser.Password
        ID := e.userULID }
      .ok (db.map (fun u => if u.ID == userID then recreated else u), recreated)

/-- `signupapi.createUser`; the repository `Create` is modelled from the
spec: it inserts the row, assigning a fresh ULID that is reflected back
into the caller's user value. -/
def createUser (db : UserDB) (newUser : User) (e : Entropy) : UserDB × User :=
  let created := { newUser with ID := e.userULID }
  (db ++ [created], created)

/-- An OTP message handed to the messaging collaborator. -/
structure Message where
  MsgType : String
  Delivery : DeliveryMethod
  Code : String
  Address : String
deriving DecidableEq

/-- The token response body (`token.Response`): the signed JWT, the
client-ID plaintext, and the refresh token only for authorized tokens. -/
structure TokenResponse where
  Token : SignedJWT
  ClientID : Wire
  RefreshToken : Option Wire
deriving DecidableEq

/-- `signupapi.respond`: sign the token, set the client-ID cookie, send
the OTP message when the token carries a code hash (the envelope always
parses by construction in the model), and build the response body. -/
def respond (svc : TokenSvc) (jwtToken : AuthToken) :
    List Message × List HttpCookie × TokenResponse :=
  let cookies := [svc.Cookie jwtToken]
  let msgs := match jwtToken.CodeHash with
    | some env => [⟨"otp_signup", env.method, jwtToken.Code, env.address⟩]
    | none => []
  (msgs, cookies,
    { Token := svc.Sign jwtToken
      ClientID := jwtToken.ClientID
      RefreshToken :=
        if jwtToken.State == TokenState.authorized
        then some jwtToken.RefreshToken else none })

/-- The public outcome of a successful signup request: the updated store,
the dispatched messages, the set cookies and the response body. -/
structure SignupOutcome where
  db : UserDB
  msgs : List Message
  cookies : List HttpCookie
  resp : TokenResponse

/-- The tail of `signupapi.SignUp` after the user row is settled: mint a
pre-authorized token with the request's OTP delivery method and respond. -/
def signupMint (svc : TokenSvc) (db : UserDB) (newUser : User)
    (req : SignupRequest) (now : Int) (e : Entropy) : Except ApiErr SignupOutcome :=
  match svc.Create newUser .preAuthorized [WithOTPDeliveryMethod req.Typ] now e with
  | .error (.invalidField m) => .error (.invalidField m)
  | .ok jwtToken =>
    let r := respond svc jwtToken
    .ok ⟨db, r.1, r.2.1, r.2.2⟩

/-- `signupapi.SignUp`: look up the identity; a verified hit is a generic
`BadRequest`, an unverified hit is re-created, a miss is created; then
mint and respond. -/
def SignUp (svc : TokenSvc) (db : UserDB) (req : SignupRequest)
    (now : Int) (e : Entropy) : Except ApiErr SignupOutcome :=
  let newUser := req.ToUser
  match byIdentity db req.Typ req.Identity with
  | some user =>
    if user.IsVerified then
      .error (.badRequest "cannot register user")
    else
      match reCreateUser db user.ID newUser e with
      | .error err => .error err
      | .ok p => signupMint svc p.1 p.2 req now e
  | none =>
    let p := createUser db newUser e
    signupMint svc p.1 p.2 req now e

/-- A login-history row (`auth.LoginHistory`). -/
structure LoginHistory where
  TokenID : String
  UserID : String
  IsRevoked : Bool
  ExpiresAt : Int
deriving DecidableEq

/-- The persistent state the signup-verify flow touches. -/
structure AppState where
  users : UserDB
  logins : List LoginHistory

/-- Modelled from the spec: `otp.ValidateOTP(code, envelope)` parses the
envelope, requires now strictly before expiry, hashes the code and
compares to the digest, failing with `InvalidField("otp")` on any
mismatch (the `internal/otp` engine is not among the sources). -/
def ValidateOTP (hash : Data → String) (now : Int) (code : String)
    (codeHash : Option OTPEnvelope) : Except ApiErr Unit :=
  match codeHash with
  | none => .error (.invalidField "otp")
  | some env =>
    if decide (now ≥ env.expiresAt) then .error (.invalidField "otp")
    else if hash (.str code) != env.digest then .error (.invalidField "otp")
    else .ok ()

/-- Modelled from the spec: `RefreshableTill(token, refreshToken)` is the
refresh envelope's expiry, stored as the `LoginHistory` row's
`expires-at` (the method is absent from the token service source). -/
def TokenSvc.RefreshableTill (_s : TokenSvc) (_t : AuthToken)
    (refreshToken : Wire) : Int :=
  match (b64decode refreshToken).bind jsonParseRefreshToken with
  | some rt => rt.ExpiresAt
  | none => 0

/-- `signupapi.markUserVerified`: inside a transaction, `GetForUpdate`
the row and update it with `IsVerified := true`. -/
def markUserVerified (db : UserDB) (userID : String) : Except ApiErr UserDB :=
  match db.find? (fun u => u.ID == userID) with
  | none => .error .dbNoRows
  | some user =>
    .ok (db.map (fun u => if u.ID == userID then { user with IsVerified := true } else u))

/-- The outcome of a successful signup-verify request. -/
structure VerifyOutcome where
  state : AppState
  msgs : List Message
  cookies : List HttpCookie
  resp : TokenResponse

/-- `signupapi.Verify`: load the user behind the context's user ID,
validate the submitted OTP code against the context token's code hash,
mint an authorized token, mark the user verified, create the
login-history row keyed by the new token's ID, and respond. -/
def Verify (svc : TokenSvc) (st : AppState) (ctxUserID : String)
    (ctxToken : AuthToken) (reqCode : String) (now : Int) (e : Entropy) :
    Except ApiErr VerifyOutcome :=
  match byIdentityID st.users ctxUserID with
  | none => .error .dbNoRows
  | some user =>
    match ValidateOTP svc.hash now reqCode ctxToken.CodeHash with
    | .error err => .error err
    | .ok _ =>
      match svc.Create user .authorized [] now e with
      | .error (.invalidField m) => .error (.invalidField m)
      | .ok jwtToken =>
        match markUserVerified st.users user.ID with
        | .error err => .error err
        | .ok users2 =>
          let lh : LoginHistory :=
            ⟨jwtToken.Id, ctxUserID, false,
              svc.RefreshableTill jwtToken jwtToken.RefreshToken⟩
          let r := respond svc jwtToken
          .ok ⟨⟨users2, st.logins ++ [lh]⟩, r.1, r.2.1, r.2.2⟩

/-! Concrete instances used by witnesses and counterexamples. -/

/-- A concrete digest function standing in for SHA-512 hex in concrete
evaluations. -/
def hashFn : Data → String
  | .str s => "sha512." ++ s
  | .jsonRT rt => "sha512.rt." ++ rt.Code ++ "." ++ toString rt.ExpiresAt

/-- A concrete token service. -/
def svc0 : TokenSvc :=
  { tokenExpiry := 1200
    refreshTokenExpiry := 86400
    otpTTL := 300
    secret := "signing-secret"
    issuer := "authenticator"
    hash := hashFn
    cookieMaxAge := 86400
    cookieDomain := "example.com" }

/-- A concrete entropy draw. -/
def e0 : Entropy := ⟨"01TOKENULID", "client-secret", "refresh-code", "123456", "01USERULID"⟩

/-- A concrete user. -/
def u0 : User := ⟨"user-1", "5551234", "a@b.example", "pw", "", true, true, false, false, false⟩

/-! Helper lemmas about `Validate`. -/

/-- Whether a `Validate` outcome is an `InvalidToken`-coded error. -/
def isInvalidTokenErr : Except TokenSvc.VErr AuthToken → Bool
  | .error (.invalidToken _) => true
  | _ => false

/-- The Boolean acceptance condition of `Validate` on a structurally
well-formed bearer string. -/
def validateOkBool (s : TokenSvc) (now : Int) (ledger : Ledger)
    (hasB : Bool) (c : JWTClaims) (sec : String) (alg : Bool) (cid : Wire) : Bool :=
  hasB && alg && (sec == s.secret) && !(decide (now > c.ExpiresAt)) &&
  !(c.UserID == "") &&
  ((b64decode cid).elim false (fun d => s.hash d == c.ClientIDHash)) &&
  !(ledger.hasKey now c.Id)

lemma exceptOk_validate (s : TokenSvc) (now : Int) (ledger : Ledger)
    (hasB : Bool) (c : JWTClaims) (sec : String) (alg : Bool) (cid : Wire) :
    exceptOk (s.Validate now ledger ⟨hasB, .signed ⟨c, sec, alg⟩⟩ cid) =
      validateOkBool s now ledger hasB c sec alg cid := by
  rcases cid with d | sj <;>
    cases hasB <;>
      cases alg <;>
        simp [TokenSvc.Validate, TokenSvc.ValidateT, validateOkBool, exceptOk,
          b64decode, claimsToken] <;>
          by_cases hsec : sec = s.secret <;>
            by_cases hexp : now > c.ExpiresAt <;>
              by_cases huid : c.UserID = "" <;>
                simp [hsec, hexp, huid] <;>
                  try by_cases hh : s.hash d = c.ClientIDHash <;>
                    simp [TokenSvc.isHashValid, hh] <;>
                      by_cases hk : ledger.hasKey now c.Id <;>
                        simp [hk, exceptOk, huid]

lemma middlewareAdmits_some (v : BearerString → Except TokenSvc.VErr AuthToken)
    (b : BearerString) (cookies : List (String × Wire)) :
    middlewareAdmits v ⟨some b, cookies⟩ = exceptOk (v b) := by
  cases h : v b <;> simp [middlewareAdmits, AuthMiddleware, h, exceptOk]

/-- The claims of a concrete well-formed token used in concrete runs. -/
def claims0 : JWTClaims :=
  { ExpiresAt := 100
    Id := "t1"
    Issuer := "authenticator"
    CodeHash := none
    RefreshTokenHash := hashFn (.jsonRT ⟨"refresh-code", 86400⟩)
    UserID := "user-1"
    Email := "a@b.example"
    Phone := "5551234"
    ClientIDHash := hashFn (.str "client-secret")
    State := .preAuthorized
    TFAOptions := [] }

/-- C5: for every well-formed, signed, unexpired, unrevoked token and
every cookie value that base64url-decodes to bytes whose digest differs
from the token's `client_id_hash`, `Validate` returns `InvalidToken`
("token source is invalid"). -/
theorem C5_cookie_mismatch_rejection (s : TokenSvc) (now : Int) (ledger : Ledger)
    (jwt : SignedJWT) (cid : Wire) (d : Data)
    (halg : jwt.algHMAC = true) (hsec : jwt.secret = s.secret)
    (hexp : now ≤ jwt.claims.ExpiresAt) (huid : jwt.claims.UserID ≠ "")
    (_hrev : Ledger.hasKey ledger now jwt.claims.Id = false)
    (hdec : b64decode cid = some d)
    (hmis : s.hash d ≠ jwt.claims.ClientIDHash) :
    s.Validate now ledger ⟨true, .signed jwt⟩ cid =
      .error (.invalidToken "token source is invalid") := by
  obtain ⟨c, sec, alg⟩ := jwt
  simp only at halg hsec hexp huid hmis
  subst halg hsec
  have hlt : ¬ now > c.ExpiresAt := not_lt.mpr hexp
  simp [TokenSvc.Validate, TokenSvc.ValidateT, claimsToken, hdec, hlt, huid,
    TokenSvc.isHashValid, hmis]

/-- C5 witness: a concrete unexpired, unrevoked, well-signed token
presented with a wrong-secret cookie is rejected as `InvalidToken`. -/
theorem C5_witness :
    svc0.Validate 50 [] ⟨true, .signed ⟨claims0, "signing-secret", true⟩⟩
      (Wire.enc (.str "other-secret")) =
      .error (.invalidToken "token source is invalid") :=
  C5_cookie_mismatch_rejection svc0 50 [] ⟨claims0, "signing-secret", true⟩
    (Wire.enc (.str "other-secret")) (.str "other-secret")
    rfl rfl (by decide) (by decide) rfl rfl (by decide)

/-- C6: for every signed token whose `exp` is in the past, `Validate`
fails with an `InvalidToken`-coded error, the revocation ledger is never
consulted, and the instrumented run is identical for any two ledgers. -/
theorem C6_expiry_before_ledger (s : TokenSvc) (now : Int) (l1 l2 : Ledger)
    (hasB : Bool) (jwt : SignedJWT) (cid : Wire)
    (hexp : jwt.claims.ExpiresAt < now) :
    isInvalidTokenErr (s.Validate now l1 ⟨hasB, .signed jwt⟩ cid) = true ∧
    (s.ValidateT now l1 ⟨hasB, .signed jwt⟩ cid).2 = false ∧
    s.ValidateT now l1 ⟨hasB, .signed jwt⟩ cid =
      s.ValidateT now l2 ⟨hasB, .signed jwt⟩ cid := by
  obtain ⟨c, sec, alg⟩ := jwt
  simp only at hexp
  have hgt : now > c.ExpiresAt := hexp
  cases hasB <;>
    simp [TokenSvc.Validate, TokenSvc.ValidateT, isInvalidTokenErr, hgt]

/-- C6 witness: a concrete expired token is rejected as `InvalidToken`
without touching a non-empty revocation ledger, identically to the run
against an empty ledger. -/
theorem C6_witness :
    isInvalidTokenErr (svc0.Validate 200 [("t1", 999)]
      ⟨true, .signed ⟨claims0, "signing-secret", true⟩⟩
      (Wire.enc (.str "client-secret"))) = true ∧
    (svc0.ValidateT 200 [("t1", 999)]
      ⟨true, .signed ⟨claims0, "signing-secret", true⟩⟩
      (Wire.enc (.str "client-secret"))).2 = false ∧
    svc0.ValidateT 200 [("t1", 999)]
      ⟨true, .signed ⟨claims0, "signing-secret", true⟩⟩
      (Wire.enc (.str "client-secret")) =
      svc0.ValidateT 200 []
        ⟨true, .signed ⟨claims0, "signing-secret", true⟩⟩
        (Wire.enc (.str "client-secret")) :=
  C6_expiry_before_ledger svc0 200 [("t1", 999)] [] true
    ⟨claims0, "signing-secret", true⟩ (Wire.enc (.str "client-secret")) (by decide)

/-- C10: `Validate` is state-blind — two otherwise-identical signed
tokens differing only in the `state` claim are both accepted or both
rejected — and the auth middleware admits a request bearing the
pre-authorized variant exactly as it admits the authorized variant,
whatever the request cookies. -/
theorem C10_validate_state_blind (s : TokenSvc) (now : Int) (ledger : Ledger)
    (c : JWTClaims) (sec : String) (alg hasB : Bool) (cid : Wire)
    (s1 s2 : TokenState) (cookies1 cookies2 : List (String × Wire)) :
    exceptOk (s.Validate now ledger
        ⟨hasB, .signed ⟨{ c with State := s1 }, sec, alg⟩⟩ cid) =
      exceptOk (s.Validate now ledger
        ⟨hasB, .signed ⟨{ c with State := s2 }, sec, alg⟩⟩ cid) ∧
    middlewareAdmits (fun b => s.Validate now ledger b cid)
        ⟨some ⟨hasB, .signed ⟨{ c with State := s1 }, sec, alg⟩⟩, cookies1⟩ =
      middlewareAdmits (fun b => s.Validate now ledger b cid)
        ⟨some ⟨hasB, .signed ⟨{ c with State := s2 }, sec, alg⟩⟩, cookies2⟩ := by
  have h1 := exceptOk_validate s now ledger hasB { c with State := s1 } sec alg cid
  have h2 := exceptOk_validate s now ledger hasB { c with State := s2 } sec alg cid
  have hb : validateOkBool s now ledger hasB { c with State := s1 } sec alg cid =
      validateOkBool s now ledger hasB { c with State := s2 } sec alg cid := rfl
  refine ⟨by rw [h1, h2, hb], ?_⟩
  rw [middlewareAdmits_some, middlewareAdmits_some, h1, h2, hb]

lemma hasKey_revoke (ledger : Ledger) (t0 now d : Int) (id : String)
    (h1 : now < t0 + d) :
    Ledger.hasKey (TokenSvc.Revoke ledger t0 id d) now id = true := by
  simp [Ledger.hasKey, TokenSvc.Revoke, h1]

lemma validate_cases (s : TokenSvc) (now : Int) (ledger : Ledger)
    (b : BearerString) (cid : Wire) :
    (∃ m, s.Validate now ledger b cid = .error (.invalidToken m)) ∨
    (b64decode cid = none ∧
      s.Validate now ledger b cid = .error (.decodeFailed "cannot decode client ID")) ∨
    (∃ t, s.Validate now ledger b cid = .ok t ∧
      (∀ jwt, b.payload = JWTString.signed jwt → t = claimsToken jwt.claims) ∧
      Ledger.hasKey ledger now t.Id = false ∧
      ∃ d, b64decode cid = some d ∧ s.hash d = t.ClientIDHash) := by
  obtain ⟨hasB, pay⟩ := b
  cases hasB
  · exact .inl ⟨"bearer token expected", by simp [TokenSvc.Validate, TokenSvc.ValidateT]⟩
  · cases pay with
    | malformed sm =>
      exact .inl ⟨"token is invalid", by simp [TokenSvc.Validate, TokenSvc.ValidateT]⟩
    | signed jwt =>
      obtain ⟨c, sec, alg⟩ := jwt
      by_cases hc : (!alg || sec != s.secret || decide (now > c.ExpiresAt)) = true
      · exact .inl ⟨"token is invalid", by simp [TokenSvc.Validate, TokenSvc.ValidateT, hc]⟩
      · by_cases hu : c.UserID = ""
        · exact .inl ⟨"token is not associated with user",
            by simp [TokenSvc.Validate, TokenSvc.ValidateT, hc, claimsToken, hu]⟩
        · cases hd : b64decode cid with
          | none =>
            refine .inr (.inl ⟨rfl, ?_⟩)
            simp [TokenSvc.Validate, TokenSvc.ValidateT, hc, claimsToken, hu, hd]
          | some dd =>
            by_cases hh : s.isHashValid dd c.ClientIDHash
            · by_cases hk : Ledger.hasKey ledger now c.Id
              · exact .inl ⟨"token is revoked",
                  by simp [TokenSvc.Validate, TokenSvc.ValidateT, hc, claimsToken,
                    hu, hd, hh, hk]⟩
              · refine .inr (.inr ⟨claimsToken c, ?_, ?_, ?_, dd, rfl, ?_⟩)
                · simp [TokenSvc.Validate, TokenSvc.ValidateT, hc, claimsToken, hu, hd, hh, hk]
                · intro jwt hj
                  cases hj
                  rfl
                · simpa [claimsToken] using hk
                · simpa [TokenSvc.isHashValid, claimsToken] using hh
            · exact .inl ⟨"token source is invalid",
                by simp [TokenSvc.Validate, TokenSvc.ValidateT, hc, claimsToken, hu, hd, hh]⟩

/-- C2 (amended): after `Revoke(id, d)` at time `t0`, every `Validate`
call on any signed token whose claim ID equals `id`, at any time before
`d` has elapsed, fails; and whenever the supplied client-ID cookie
base64url-decodes, the error is `InvalidToken`. -/
theorem C2_revocation_window (s : TokenSvc) (ledger : Ledger) (t0 now d : Int)
    (id : String) (b : BearerString) (cid : Wire) (jwt : SignedJWT)
    (hpay : b.payload = .signed jwt) (hid : jwt.claims.Id = id)
    (_h0 : t0 ≤ now) (h1 : now < t0 + d) :
    (∀ t, s.Validate now (TokenSvc.Revoke ledger t0 id d) b cid ≠ .ok t) ∧
    (∀ dd, b64decode cid = some dd →
      ∃ m, s.Validate now (TokenSvc.Revoke ledger t0 id d) b cid =
        .error (.invalidToken m)) := by
  have hkey : Ledger.hasKey (TokenSvc.Revoke ledger t0 id d) now id = true :=
    hasKey_revoke ledger t0 now d id h1
  rcases validate_cases s now (TokenSvc.Revoke ledger t0 id d) b cid with
    ⟨m, hm⟩ | ⟨hn, hm⟩ | ⟨t, ht, htok, hk, _⟩
  · refine ⟨?_, fun dd _ => ⟨m, hm⟩⟩
    intro t h
    rw [hm] at h
    cases h
  · refine ⟨?_, ?_⟩
    · intro t h
      rw [hm] at h
      cases h
    · intro dd hdd
      rw [hn] at hdd
      cases hdd
  · exfalso
    have hteq : t = claimsToken jwt.claims := htok jwt hpay
    have hids : t.Id = id := by rw [hteq]; exact hid
    rw [hids, hkey] at hk
    cases hk

/-- C2 witness: a concrete well-formed token whose ID was revoked for 100
seconds is rejected as `InvalidToken` 5 seconds later when presented with
its matching, well-formed cookie. -/
theorem C2_witness :
    ∃ m, svc0.Validate 5 (TokenSvc.Revoke [] 0 "t1" 100)
      ⟨true, .signed ⟨claims0, "signing-secret", true⟩⟩
      (Wire.enc (.str "client-secret")) = .error (.invalidToken m) :=
  (C2_revocation_window svc0 [] 0 5 100 "t1"
      ⟨true, .signed ⟨claims0, "signing-secret", true⟩⟩
      (Wire.enc (.str "client-secret")) ⟨claims0, "signing-secret", true⟩
      rfl rfl (by decide) (by decide)).2
    (.str "client-secret") rfl

/-- C2 counterexample: during the revocation window, a `Validate` call on
a signed token carrying the revoked ID but accompanied by an undecodable
cookie returns the wrapped base64 decode error, not `InvalidToken` — so
not every `Validate` call on a token with the revoked ID returns
`InvalidToken`. -/
theorem C2_counterexample :
    svc0.Validate 5 (TokenSvc.Revoke [] 0 "t1" 100)
      ⟨true, .signed ⟨claims0, "signing-secret", true⟩⟩ (Wire.junk "%%") =
      .error (.decodeFailed "cannot decode client ID") ∧
    isInvalidTokenErr (svc0.Validate 5 (TokenSvc.Revoke [] 0 "t1" 100)
      ⟨true, .signed ⟨claims0, "signing-secret", true⟩⟩ (Wire.junk "%%")) = false :=
  ⟨rfl, rfl⟩

/-- C1 (amended): for every user with a non-empty ID, every state, and
every option set that does not carry a refreshable token, a token minted
by `Create`, signed, and passed to `Validate` together with the client-ID
plaintext returned at creation — while unexpired and unrevoked —
validates successfully, and the returned claim agrees with the minted
token on ID, user-id, email, phone, state, client-id-hash, code-hash,
refresh-token-hash and TFA options. -/
lemma validate_sign_ok (s : TokenSvc) (now2 : Int) (ledger : Ledger)
    (tt : AuthToken) (d0 : Data)
    (hcid : tt.ClientID = b64encode d0) (hh : tt.ClientIDHash = s.hash d0)
    (huid : tt.UserID ≠ "") (hexp : now2 ≤ tt.ExpiresAt)
    (hrev : Ledger.hasKey ledger now2 tt.Id = false) :
    s.Validate now2 ledger ⟨true, .signed (s.Sign tt)⟩ tt.ClientID =
      .ok (claimsToken (tokenClaims tt)) := by
  have hlt : ¬ now2 > tt.ExpiresAt := not_lt.mpr hexp
  simp [TokenSvc.Validate, TokenSvc.ValidateT, TokenSvc.Sign, tokenClaims,
    claimsToken, hcid, hh, b64encode, b64decode, TokenSvc.isHashValid, huid,
    hlt, hrev]

theorem C1_roundtrip (s : TokenSvc) (user : User) (state : TokenState)
    (options : List TokenOption) (now now2 : Int) (e : Entropy)
    (ledger : Ledger) (t : AuthToken)
    (huid : user.ID ≠ "")
    (hfresh : (applyOptions options).RefreshableToken = none)
    (hok : s.Create user state options now e = .ok t)
    (hexp : now2 ≤ t.ExpiresAt)
    (hrev : Ledger.hasKey ledger now2 t.Id = false) :
    ∃ t2, s.Validate now2 ledger ⟨true, .signed (s.Sign t)⟩ t.ClientID = .ok t2 ∧
      t2.Id = t.Id ∧ t2.UserID = t.UserID ∧ t2.Email = t.Email ∧
      t2.Phone = t.Phone ∧ t2.State = t.State ∧
      t2.ClientIDHash = t.ClientIDHash ∧ t2.CodeHash = t.CodeHash ∧
      t2.RefreshTokenHash = t.RefreshTokenHash ∧ t2.TFAOptions = t.TFAOptions := by
  have hclient : s.genClientIDAndHash (applyOptions options) e =
      (b64encode (.str e.clientID), s.hash (.str e.clientID)) := by
    simp [TokenSvc.genClientIDAndHash, hfresh]
  cases hgen : s.genOTPAndHash (applyOptions options) user now e with
  | error err =>
    simp only [TokenSvc.Create, hgen] at hok
    cases hok
  | ok otp =>
    simp only [TokenSvc.Create, hgen] at hok
    injection hok with ht
    subst ht
    refine ⟨_, validate_sign_ok s now2 ledger _ (.str e.clientID) ?_ ?_ huid hexp hrev,
      rfl, rfl, rfl, rfl, rfl, rfl, rfl, rfl, rfl⟩
    · simp [hclient]
    · simp [hclient]

/-- The token minted by `svc0.Create u0 .preAuthorized [] 0 e0`. -/
def tC1 : AuthToken :=
  { ExpiresAt := 1200
    Id := "01TOKENULID"
    Issuer := "authenticator"
    Code := ""
    CodeHash := none
    RefreshToken := b64encode (.jsonRT ⟨"refresh-code", 86400⟩)
    RefreshTokenHash := hashFn (.jsonRT ⟨"refresh-code", 86400⟩)
    UserID := "user-1"
    Email := "a@b.example"
    Phone := "5551234"
    ClientID := b64encode (.str "client-secret")
    ClientIDHash := hashFn (.str "client-secret")
    State := .preAuthorized
    TFAOptions := [.otpPhone, .otpEmail] }

/-- C1 witness: a concrete fresh mint round-trips through `Sign` and
`Validate` with its creation-time client-ID plaintext. -/
theorem C1_witness :
    ∃ t2, svc0.Validate 1 [] ⟨true, .signed (svc0.Sign tC1)⟩ tC1.ClientID = .ok t2 ∧
      t2.Id = tC1.Id ∧ t2.UserID = tC1.UserID ∧ t2.Email = tC1.Email ∧
      t2.Phone = tC1.Phone ∧ t2.State = tC1.State ∧
      t2.ClientIDHash = tC1.ClientIDHash ∧ t2.CodeHash = tC1.CodeHash ∧
      t2.RefreshTokenHash = tC1.RefreshTokenHash ∧ t2.TFAOptions = tC1.TFAOptions :=
  C1_roundtrip svc0 u0 .preAuthorized [] 0 1 e0 [] tC1
    (by decide) rfl rfl (by decide) rfl

/-- A user with an empty ID. -/
def uEmpty : User := { u0 with ID := "" }

/-- C1 counterexample: the round-trip fails as literally stated. First, a
user whose ID is the empty string: `Create` succeeds but `Validate`
rejects the signed result. Second, the refreshable-token option set: the
client-ID plaintext returned at creation is empty, and `Validate` with it
rejects the token. Both runs are unexpired and unrevoked. -/
theorem C1_counterexample :
    ((svc0.Create uEmpty .preAuthorized [] 0 e0).map (fun t =>
        svc0.Validate 1 [] ⟨true, .signed (svc0.Sign t)⟩ t.ClientID)) =
      .ok (.error (.invalidToken "token is not associated with user")) ∧
    ((svc0.Create u0 .authorized [] 0 e0).bind (fun t1 =>
        (svc0.Create u0 .authorized [WithRefreshableToken t1] 10 e0).map (fun t2 =>
          svc0.Validate 11 [] ⟨true, .signed (svc0.Sign t2)⟩ t2.ClientID))) =
      .ok (.error (.invalidToken "token source is invalid")) := by
  constructor
  · rfl
  · rfl

/-- C3 (amended): `Create`'s hash generation does not depend on the
requested state. Every fresh mint (no refreshable-token option) stores
the digest of a freshly built refresh envelope as its refresh-token-hash
— pre-authorized mints included — and carries a code-hash exactly when an
OTP delivery method was configured. -/
theorem C3_token_shape (s : TokenSvc) (user : User) (state : TokenState)
    (options : List TokenOption) (now : Int) (e : Entropy) (t : AuthToken)
    (hfresh : (applyOptions options).RefreshableToken = none)
    (hok : s.Create user state options now e = .ok t) :
    t.RefreshTokenHash = s.hash (.jsonRT ⟨e.refreshCode, now + s.refreshTokenExpiry⟩) ∧
    (t.CodeHash.isSome ↔ ((applyOptions options).DeliveryMethod).isSome) := by
  cases hgen : s.genOTPAndHash (applyOptions options) user now e with
  | error err =>
    simp only [TokenSvc.Create, hgen] at hok
    cases hok
  | ok otp =>
    simp only [TokenSvc.Create, hgen] at hok
    injection hok with ht
    subst ht
    constructor
    · simp [TokenSvc.genRefreshTokenAndHash, hfresh]
    · cases hdm : (applyOptions options).DeliveryMethod with
      | none =>
        simp only [TokenSvc.genOTPAndHash, hdm] at hgen
        injection hgen with h2
        subst h2
        simp
      | some m =>
        simp only [TokenSvc.genOTPAndHash, hdm] at hgen
        repeat' split at hgen
        all_goals cases hgen
        all_goals simp [hdm]

/-- The token minted by
`svc0.Create u0 .preAuthorized [WithOTPDeliveryMethod .email] 0 e0`. -/
def tC3 : AuthToken :=
  { ExpiresAt := 1200
    Id := "01TOKENULID"
    Issuer := "authenticator"
    Code := "123456"
    CodeHash := some ⟨hashFn (.str "123456"), 300, "a@b.example", .email⟩
    RefreshToken := b64encode (.jsonRT ⟨"refresh-code", 86400⟩)
    RefreshTokenHash := hashFn (.jsonRT ⟨"refresh-code", 86400⟩)
    UserID := "user-1"
    Email := "a@b.example"
    Phone := "5551234"
    ClientID := b64encode (.str "client-secret")
    ClientIDHash := hashFn (.str "client-secret")
    State := .preAuthorized
    TFAOptions := [.otpPhone, .otpEmail] }

/-- C3 witness: the concrete pre-authorized signup mint carries both the
fresh refresh-envelope digest and a code-hash. -/
theorem C3_witness :
    tC3.RefreshTokenHash =
      svc0.hash (.jsonRT ⟨"refresh-code", 0 + svc0.refreshTokenExpiry⟩) ∧
    (tC3.CodeHash.isSome ↔
      ((applyOptions [WithOTPDeliveryMethod .email]).DeliveryMethod).isSome) :=
  C3_token_shape svc0 u0 .preAuthorized [WithOTPDeliveryMethod .email] 0 e0 tC3 rfl rfl

/-- C3 counterexample: a token minted by `Create` in the pre-authorized
state (signup's option set) has a code-hash but also a non-empty
refresh-token-hash, contradicting "no refresh-token-hash". -/
theorem C3_counterexample :
    (svc0.Create u0 .preAuthorized [WithOTPDeliveryMethod .email] 0 e0).map
        (fun t => (t.CodeHash.isSome, t.RefreshTokenHash == "")) = .ok (true, false) := rfl

/-- C7 (amended): `Refreshable(token, r)` succeeds iff `r`
base64url-decodes, its bytes hash to the token's refresh-token-hash, the
envelope parses, and now is before the envelope expiry. Hash mismatch and
expiry collapse to `InvalidToken`, but a decode failure and a malformed
envelope are reported as distinct wrapped format errors, not
`InvalidToken`. -/
theorem C7_refreshable_conditions (s : TokenSvc) (t : AuthToken) (r : Wire) (now : Int) :
    (s.Refreshable t r now = .ok () ↔
      ∃ d, b64decode r = some d ∧ s.hash d = t.RefreshTokenHash ∧
        ∃ rt, jsonParseRefreshToken d = some rt ∧ now < rt.ExpiresAt) ∧
    (b64decode r = none →
      s.Refreshable t r now = .error (.decodeFailed "cannot decode refresh token")) ∧
    (∀ d, b64decode r = some d → s.hash d ≠ t.RefreshTokenHash →
      s.Refreshable t r now = .error (.invalidToken "refresh token is invalid")) ∧
    (∀ d, b64decode r = some d → s.hash d = t.RefreshTokenHash →
      jsonParseRefreshToken d = none →
      s.Refreshable t r now = .error (.formatInvalid "invalid refresh token format")) ∧
    (∀ d rt, b64decode r = some d → s.hash d = t.RefreshTokenHash →
      jsonParseRefreshToken d = some rt → now ≥ rt.ExpiresAt →
      s.Refreshable t r now = .error (.invalidToken "refresh token is expired")) := by
  refine ⟨⟨?_, ?_⟩, ?_, ?_, ?_, ?_⟩
  · intro h
    rcases r with d | sj
    · simp only [TokenSvc.Refreshable, b64decode] at h
      by_cases hh : s.isHashValid d t.RefreshTokenHash
      · cases hp : jsonParseRefreshToken d with
        | none =>
          rw [if_neg (by simp [hh]), hp] at h
          simp at h
        | some rt =>
          by_cases hex : now ≥ rt.ExpiresAt
          · rw [if_neg (by simp [hh]), hp] at h
            simp [hex] at h
          · refine ⟨d, rfl, ?_, rt, hp, lt_of_not_ge hex⟩
            simpa [TokenSvc.isHashValid] using hh
      · rw [if_pos (by simp [hh])] at h
        cases h
    · cases h
  · rintro ⟨d, hd, hh, rt, hp, hlt⟩
    rcases r with d' | sj
    · injection hd with hd'
      subst hd'
      simp [TokenSvc.Refreshable, b64decode, TokenSvc.isHashValid, hh, hp,
        not_le.mpr hlt]
    · cases hd
  · intro hd
    rcases r with d | sj
    · cases hd
    · rfl
  · intro d hd hne
    rcases r with d' | sj
    · injection hd with hd'
      subst hd'
      simp [TokenSvc.Refreshable, b64decode, TokenSvc.isHashValid, hne]
    · cases hd
  · intro d hd hh hp
    rcases r with d' | sj
    · injection hd with hd'
      subst hd'
      simp [TokenSvc.Refreshable, b64decode, TokenSvc.isHashValid, hh, hp]
    · cases hd
  · intro d rt hd hh hp hex
    rcases r with d' | sj
    · injection hd with hd'
      subst hd'
      simp [TokenSvc.Refreshable, b64decode, TokenSvc.isHashValid, hh, hp, hex]
    · cases hd

/-- C7 witness: the concrete fresh mint's own refresh envelope is
accepted by `Refreshable` before its expiry. -/
theorem C7_witness :
    svc0.Refreshable tC1 (b64encode (.jsonRT ⟨"refresh-code", 86400⟩)) 0 = .ok () :=
  (C7_refreshable_conditions svc0 tC1 (b64encode (.jsonRT ⟨"refresh-code", 86400⟩)) 0).1.mpr
    ⟨.jsonRT ⟨"refresh-code", 86400⟩, rfl, rfl, ⟨"refresh-code", 86400⟩, rfl, by decide⟩

/-- Whether a `Refreshable` outcome is an `InvalidToken`-coded error. -/
def refreshErrIsInvalidToken : Except TokenSvc.RefreshErr Unit → Bool
  | .error (.invalidToken _) => true
  | _ => false

/-- C7 counterexample: `Refreshable` on an undecodable candidate fails
with the wrapped decode error, not with `InvalidToken` — so not every
failure collapses to the single error `InvalidToken`. -/
theorem C7_counterexample :
    svc0.Refreshable tC1 (Wire.junk "~~") 0 =
      .error (.decodeFailed "cannot decode refresh token") ∧
    refreshErrIsInvalidToken (svc0.Refreshable tC1 (Wire.junk "~~") 0) = false :=
  ⟨rfl, rfl⟩

/-- C4 (amended): the two-argument `service.Validate` accepts only when
the supplied cookie value decodes and its digest equals the token's
`client_id_hash`; but the auth middleware passes no cookie to its
one-argument validate — its admission decision is a function of the
`AUTHORIZATION` header alone, identical for any two cookie lists — so the
`CLIENTID` cookie is not required on the middleware path. -/
theorem C4_cookie_binding (s : TokenSvc) :
    (∀ (now : Int) (ledger : Ledger) (b : BearerString) (cid : Wire) (t : AuthToken),
      s.Validate now ledger b cid = .ok t →
      ∃ d, b64decode cid = some d ∧ s.hash d = t.ClientIDHash) ∧
    (∀ (v : BearerString → Except TokenSvc.VErr AuthToken)
      (a : Option BearerString) (cookies1 cookies2 : List (String × Wire)),
      middlewareAdmits v ⟨a, cookies1⟩ = middlewareAdmits v ⟨a, cookies2⟩) := by
  constructor
  · intro now ledger b cid t hok
    rcases validate_cases s now ledger b cid with
      ⟨m, hm⟩ | ⟨_, hm⟩ | ⟨t2, ht2, _, _, d, hd, hh⟩
    · rw [hm] at hok
      cases hok
    · rw [hm] at hok
      cases hok
    · rw [ht2] at hok
      injection hok with h
      subst h
      exact ⟨d, hd, hh⟩
  · intro v a c1 c2
    cases a with
    | none => rfl
    | some b => rw [middlewareAdmits_some, middlewareAdmits_some]

/-- C4 witness: a concrete accepted `Validate` call, from which the
cookie-binding conclusion is discharged at the creation-time cookie. -/
theorem C4_witness :
    ∃ d, b64decode tC1.ClientID = some d ∧ svc0.hash d = tC1.ClientIDHash :=
  (C4_cookie_binding svc0).1 1 [] ⟨true, .signed (svc0.Sign tC1)⟩ tC1.ClientID
    (claimsToken (tokenClaims tC1)) rfl

/-- C4 counterexample: an authenticated request carrying a valid bearer
token but no cookies at all — in particular no `CLIENTID` cookie — is
admitted by the auth middleware and handled. -/
theorem C4_counterexample :
    AuthMiddleware (fun _ uid => Except.ok uid)
      (fun b => svc0.Validate 1 [] b tC1.ClientID)
      ⟨some ⟨true, .signed (svc0.Sign tC1)⟩, []⟩ = .ok "user-1" := rfl

/-- C8 (amended): signup with an already-verified identity returns the
generic `BadRequest("cannot register user")` — the same response for
every verified identity, revealing only that registration failed — while
signup with an unused, non-empty identity succeeds with a pre-authorized
token response; the two public responses are not the same. -/
theorem C8_signup_responses (svc : TokenSvc) (db : UserDB) (req : SignupRequest)
    (now : Int) (e : Entropy) :
    (∀ user, byIdentity db req.Typ req.Identity = some user → user.IsVerified = true →
      SignUp svc db req now e = .error (.badRequest "cannot register user")) ∧
    (byIdentity db req.Typ req.Identity = none → req.Identity ≠ "" →
      exceptOk (SignUp svc db req now e) = true) := by
  constructor
  · intro user hfound hver
    simp [SignUp, hfound, hver]
  · intro hnone hid
    obtain ⟨ty, ident, pw⟩ := req
    simp only at hnone hid
    cases ty <;>
      simp [SignUp, hnone, createUser, signupMint, SignupRequest.ToUser,
        TokenSvc.Create, applyOptions, WithOTPDeliveryMethod,
        TokenSvc.genOTPAndHash, TokenSvc.OTPCode, hid, respond, exceptOk]

/-- A store holding only a verified copy of `u0`. -/
def dbVerified : UserDB := [{ u0 with IsVerified := true }]

/-- A concrete email signup request for `u0`'s email address. -/
def req8 : SignupRequest := ⟨.email, "a@b.example", "pw"⟩

/-- C8 witness: the generic rejection and the unused-identity success,
obtained from the amended theorem at concrete inputs. -/
theorem C8_witness :
    SignUp svc0 dbVerified req8 5 e0 = .error (.badRequest "cannot register user") ∧
    exceptOk (SignUp svc0 [] req8 5 e0) = true :=
  ⟨(C8_signup_responses svc0 dbVerified req8 5 e0).1 { u0 with IsVerified := true } rfl rfl,
   (C8_signup_responses svc0 [] req8 5 e0).2 rfl (by decide)⟩

/-- C8 counterexample: the public response for a signup submitting an
already-verified identity (a `BadRequest` error) is not the same as the
response for the same request against a store where the identity is
unused (a token response) — the claimed response equality fails. -/
theorem C8_counterexample :
    SignUp svc0 dbVerified req8 0 e0 = .error (.badRequest "cannot register user") ∧
    exceptOk (SignUp svc0 [] req8 0 e0) = true := ⟨rfl, rfl⟩

/-- C9: every successful signup-verify run leaves the looked-up user row
verified and creates a login-history row keyed by the newly minted
authorized token's ID (the ID inside the signed token of the response). -/
theorem C9_verify_postconditions (svc : TokenSvc) (st : AppState) (uid : String)
    (tok : AuthToken) (code : String) (now : Int) (e : Entropy) (out : VerifyOutcome)
    (hok : Verify svc st uid tok code now e = .ok out) :
    (∃ u, u ∈ out.state.users ∧ u.ID = uid ∧ u.IsVerified = true) ∧
    (∃ lh, lh ∈ out.state.logins ∧ lh.TokenID = out.resp.Token.claims.Id ∧
      lh.UserID = uid) := by
  cases hfind : byIdentityID st.users uid with
  | none =>
    simp only [Verify, hfind] at hok
    cases hok
  | some user =>
    have hfind' : List.find? (fun u => u.ID == uid) st.users = some user := hfind
    have hid : user.ID = uid := by simpa using List.find?_some hfind'
    have hmem : user ∈ st.users := List.mem_of_find?_eq_some hfind'
    cases hotp : ValidateOTP svc.hash now code tok.CodeHash with
    | error er =>
      simp only [Verify, byIdentityID, hfind', hotp] at hok
      cases hok
    | ok u' =>
      simp only [Verify, byIdentityID, hfind', hotp, TokenSvc.Create, applyOptions,
        TokenSvc.genOTPAndHash, List.foldl, markUserVerified, hid, hfind'] at hok
      injection hok with hout
      subst hout
      constructor
      · refine ⟨{ user with IsVerified := true }, ?_, hid, rfl⟩
        have himg := List.mem_map_of_mem
          (f := fun u => if u.ID == uid then { user with IsVerified := true } else u) hmem
        simpa [hid] using himg
      · exact ⟨_, List.mem_append_right st.logins (List.mem_singleton_self _), rfl, rfl⟩

/-- C9 witness: a concrete successful signup-verify run — pre-authorized
token `tC3` with its matching OTP code — satisfies both postconditions. -/
theorem C9_witness :
    ∃ out, Verify svc0 ⟨[u0], []⟩ "user-1" tC3 "123456" 0 e0 = Except.ok out ∧
      (∃ u, u ∈ out.state.users ∧ u.ID = "user-1" ∧ u.IsVerified = true) ∧
      (∃ lh, lh ∈ out.state.logins ∧ lh.TokenID = out.resp.Token.claims.Id ∧
        lh.UserID = "user-1") :=
  ⟨_, rfl, C9_verify_postconditions svc0 ⟨[u0], []⟩ "user-1" tC3 "123456" 0 e0 _ rfl⟩

end Authenticator
